import Mathlib

/-!
Shallow embedding of the rust-raytracer core (src/geometry.rs and
src/raytracer.rs).  f64 scalars are modelled as real numbers.  The code
uses f64::INFINITY as a sentinel value for ray parameters, so ray
parameters (the arguments t_min and t_max and the roots returned by
intersect_ray_sphere) are modelled by the type F: a real number or the
value inf.  The raytracer never produces NaN ray parameters on the
modelled paths, so F has no NaN constructor; f64::total_cmp restricted
to F is the total order compare.
-/

/-- Vec3 (geometry.rs): a three-component double-precision vector. -/
structure Vec3 where
  x : ℝ
  y : ℝ
  z : ℝ

/-- impl Add for Vec3 (geometry.rs). -/
noncomputable def Vec3.add (a b : Vec3) : Vec3 :=
  ⟨a.x + b.x, a.y + b.y, a.z + b.z⟩

noncomputable instance : Add Vec3 := ⟨Vec3.add⟩

/-- impl Neg for Vec3 (geometry.rs). -/
noncomputable def Vec3.neg (a : Vec3) : Vec3 :=
  ⟨-a.x, -a.y, -a.z⟩

noncomputable instance : Neg Vec3 := ⟨Vec3.neg⟩

/-- impl Sub for Vec3 (geometry.rs): self + -rhs. -/
noncomputable def Vec3.sub (a b : Vec3) : Vec3 :=
  a + -b

noncomputable instance : Sub Vec3 := ⟨Vec3.sub⟩

/-- impl Mul of f64 for Vec3 (geometry.rs): each component is rhs * self.c. -/
noncomputable def Vec3.mulF (a : Vec3) (rhs : ℝ) : Vec3 :=
  ⟨rhs * a.x, rhs * a.y, rhs * a.z⟩

noncomputable instance : HMul Vec3 ℝ Vec3 := ⟨Vec3.mulF⟩

/-- impl Mul of Vec3 for f64 (geometry.rs): rhs * self. -/
noncomputable def Vec3.fMul (lhs : ℝ) (rhs : Vec3) : Vec3 :=
  rhs * lhs

noncomputable instance : HMul ℝ Vec3 Vec3 := ⟨Vec3.fMul⟩

/-- impl Div of f64 for Vec3 (geometry.rs). -/
noncomputable def Vec3.divF (a : Vec3) (rhs : ℝ) : Vec3 :=
  ⟨a.x / rhs, a.y / rhs, a.z / rhs⟩

noncomputable instance : HDiv Vec3 ℝ Vec3 := ⟨Vec3.divF⟩

/-- Vec3::dot (geometry.rs). -/
noncomputable def Vec3.dot (a rhs : Vec3) : ℝ :=
  a.x * rhs.x + a.y * rhs.y + a.z * rhs.z

/-- Vec3::length (geometry.rs): the Euclidean norm via f64::sqrt. -/
noncomputable def Vec3.length (a : Vec3) : ℝ :=
  Real.sqrt (a.dot a)

/-- Vec3::normalize (geometry.rs). -/
noncomputable def Vec3.normalize (a : Vec3) : Vec3 :=
  a / a.length

/-- Vec3::cross (geometry.rs), transcribed exactly as written in the
source; note the z component reads self.x * rhs.y - self.y * rhs.z. -/
noncomputable def Vec3.cross (a rhs : Vec3) : Vec3 :=
  ⟨a.y * rhs.z - a.z * rhs.y,
   -(a.x * rhs.z - a.z * rhs.x),
   a.x * rhs.y - a.y * rhs.z⟩

/-- Color (geometry.rs): four 8-bit channels, modelled as naturals
(every value the operations below produce lies in 0..255). -/
structure Color where
  r : ℕ
  g : ℕ
  b : ℕ
  a : ℕ

/-- clamped_mul (geometry.rs): multiplies u by f, clamps the product to
the u8 range and converts to a byte (the f64-to-u8 cast truncates, which
on the clamped non-negative product is the floor). -/
noncomputable def clamped_mul (u : ℕ) (f : ℝ) : ℕ :=
  (Int.floor (min (max ((u : ℝ) * f) 0) 255)).toNat

/-- clamped_add (geometry.rs): the u16 sum clamped to the u8 range. -/
def clamped_add (u v : ℕ) : ℕ :=
  min (u + v) 255

/-- impl Add for Color (geometry.rs). -/
def Color.add (c1 rhs : Color) : Color :=
  ⟨clamped_add c1.r rhs.r, clamped_add c1.g rhs.g,
   clamped_add c1.b rhs.b, clamped_add c1.a rhs.a⟩

instance : Add Color := ⟨Color.add⟩

/-- impl Mul of f64 for Color (geometry.rs). -/
noncomputable def Color.mulF (c : Color) (rhs : ℝ) : Color :=
  ⟨clamped_mul c.r rhs, clamped_mul c.g rhs, clamped_mul c.b rhs, clamped_mul c.a rhs⟩

noncomputable instance : HMul Color ℝ Color := ⟨Color.mulF⟩

/-- impl Mul of Color for f64 (geometry.rs). -/
noncomputable def Color.fMul (lhs : ℝ) (rhs : Color) : Color :=
  ⟨clamped_mul rhs.r lhs, clamped_mul rhs.g lhs, clamped_mul rhs.b lhs, clamped_mul rhs.a lhs⟩

noncomputable instance : HMul ℝ Color Color := ⟨Color.fMul⟩

/-- Specularity (geometry.rs). -/
inductive Specularity where
  | Specular (s : ℝ) : Specularity
  | Matte : Specularity

/-- Sphere (geometry.rs). -/
structure Sphere where
  radius : ℝ
  center : Vec3
  color : Color
  specularity : Specularity
  reflectiveness : ℝ

/-- Surface (geometry.rs). -/
structure Surface where
  w : ℝ
  h : ℝ

/-- AmbientLight (geometry.rs). -/
structure AmbientLight where
  intensity : ℝ

/-- PointLight (geometry.rs). -/
structure PointLight where
  intensity : ℝ
  position : Vec3

/-- DirectionalLight (geometry.rs). -/
structure DirectionalLight where
  intensity : ℝ
  dir : Vec3

/-- Light (geometry.rs). -/
inductive Light where
  | Ambient (light : AmbientLight) : Light
  | Point (light : PointLight) : Light
  | Directional (light : DirectionalLight) : Light

/-- Scene (geometry.rs). -/
structure Scene where
  spheres : List Sphere
  bg_color : Color
  canvas : Surface
  viewport : Surface
  camera_dist : ℝ
  lights : List Light

/-- An f64 ray parameter: a finite real value or the f64::INFINITY
sentinel. -/
inductive F where
  | fin (x : ℝ) : F
  | inf : F

/-- The f64 order on ray parameters: inf is greater than every finite
value and equal to itself. -/
def F.le : F → F → Prop
  | F.fin x, F.fin y => x ≤ y
  | _, F.inf => True
  | F.inf, F.fin _ => False

instance : LE F := ⟨F.le⟩

/-- The strict f64 order on ray parameters. -/
def F.lt : F → F → Prop
  | F.fin x, F.fin y => x < y
  | F.fin _, F.inf => True
  | F.inf, _ => False

instance : LT F := ⟨F.lt⟩

noncomputable instance F.decLE : (a b : F) → Decidable (a ≤ b)
  | F.fin x, F.fin y => decidable_of_iff (x ≤ y) Iff.rfl
  | F.fin _, F.inf => Decidable.isTrue True.intro
  | F.inf, F.inf => Decidable.isTrue True.intro
  | F.inf, F.fin _ => Decidable.isFalse (fun h => h)

noncomputable instance F.decLT : (a b : F) → Decidable (a < b)
  | F.fin x, F.fin y => decidable_of_iff (x < y) Iff.rfl
  | F.fin _, F.inf => Decidable.isTrue True.intro
  | F.inf, _ => Decidable.isFalse (fun h => h)

/-- f64::min restricted to F (neither argument is NaN in the modelled
code paths). -/
noncomputable def F.min : F → F → F
  | F.fin x, F.fin y => F.fin (Min.min x y)
  | F.fin x, F.inf => F.fin x
  | F.inf, b => b

/-- f64::total_cmp restricted to F: the compare of the total order. -/
noncomputable def F.total_cmp : F → F → Ordering
  | F.fin x, F.fin y =>
    if x < y then Ordering.lt else if y < x then Ordering.gt else Ordering.eq
  | F.fin _, F.inf => Ordering.lt
  | F.inf, F.fin _ => Ordering.gt
  | F.inf, F.inf => Ordering.eq

/-- The finite value of a ray parameter.  Every parameter that
closest_intersection returns passed its strictly-below-infinity filter,
so the inf case is never reached there; it is mapped to 0. -/
def F.toReal : F → ℝ
  | F.fin x => x
  | F.inf => 0

/-- Iterator::min_by (what the Rust iterator chain ends in): the
first element that is minimal for the comparison function. -/
def minBy {α : Type} (cmp : α → α → Ordering) : List α → Option α
  | [] => none
  | x :: xs =>
    some (xs.foldl (fun acc y => if cmp acc y = Ordering.gt then y else acc) x)

/-- intersect_ray_sphere (raytracer.rs): the values of t for which the
ray origin + dir * t intersects the sphere. -/
noncomputable def intersect_ray_sphere (origin dir : Vec3) (sphere : Sphere) : F × F :=
  let r := sphere.radius
  let co := origin - sphere.center
  let a := dir.dot dir
  let b := 2 * co.dot dir
  let c := co.dot co - r * r
  let discriminant := b * b - 4 * a * c
  if discriminant < 0 then (F.inf, F.inf)
  else
    let t1 := (-b + Real.sqrt discriminant) / (2 * a)
    let t2 := (-b - Real.sqrt discriminant) / (2 * a)
    (F.fin t1, F.fin t2)

/-- closest_intersection (raytracer.rs): the sphere at the nearest
intersection of the ray origin + dir * t within the given range of t,
written as the source's iterator chain. -/
noncomputable def closest_intersection (scene : Scene) (origin dir : Vec3)
    (t_min t_max : F) : Option (F × Sphere) :=
  minBy (fun p q => F.total_cmp p.1 q.1)
    ((((scene.spheres.map
        (fun sphere => (intersect_ray_sphere origin dir sphere, sphere))).filter
        (fun p => decide
          (p.1.1 ≥ t_min ∧ p.1.1 ≤ t_max ∧ p.1.2 ≥ t_min ∧ p.1.2 ≤ t_max))).map
        (fun p => (F.min p.1.1 p.1.2, p.2))).filter
        (fun p => decide (p.1 < F.inf)))

/-- reflect_ray (raytracer.rs): reflect ray with respect to normal. -/
noncomputable def reflect_ray (ray normal : Vec3) : Vec3 :=
  (2 : ℝ) * normal * normal.dot ray - ray

/-- The calculate_intensity closure of compute_lighting (raytracer.rs),
lifted to the top level with its captured variables as parameters. -/
noncomputable def calculate_intensity (scene : Scene)
    (point normal point_to_camera : Vec3) (specularity : Specularity)
    (intensity : ℝ) (light_dir : Vec3) (t_max : F) : ℝ :=
  if (closest_intersection scene point light_dir (F.fin 0.001) t_max).isSome then 0
  else
    let n_dot_l := normal.dot light_dir
    let diffuse :=
      if n_dot_l > 0 then n_dot_l / (normal.length * light_dir.length) else 0
    let specular :=
      match specularity with
      | Specularity.Specular s =>
        let reflect_dir := reflect_ray light_dir normal
        let r_dot_v := reflect_dir.dot point_to_camera
        if r_dot_v > 0 then
          intensity *
            Real.rpow (r_dot_v / (reflect_dir.length * point_to_camera.length)) s
        else 0
      | Specularity.Matte => 0
    diffuse + specular

/-- One light's summand in compute_lighting (raytracer.rs): the body of
the map over scene.lights. -/
noncomputable def light_contribution (scene : Scene)
    (point normal point_to_camera : Vec3) (specularity : Specularity) :
    Light → ℝ
  | Light.Ambient light => light.intensity
  | Light.Point light =>
    calculate_intensity scene point normal point_to_camera specularity
      light.intensity (light.position - point) (F.fin 1)
  | Light.Directional light =>
    calculate_intensity scene point normal point_to_camera specularity
      light.intensity light.dir F.inf

/-- compute_lighting (raytracer.rs): the lighting at the point with the
given normal vector, folded with addition over all lights. -/
noncomputable def compute_lighting (scene : Scene)
    (point normal point_to_camera : Vec3) (specularity : Specularity) : ℝ :=
  ((scene.lights.map
    (light_contribution scene point normal point_to_camera specularity)).foldl
    (fun acc x => acc + x) 0)

/-- trace_ray (raytracer.rs): the color of the sphere at the nearest
intersection of the ray, with recursive reflection.  depth is a u8,
modelled by Fin 256 with the wrapping subtraction of the source; the
guard depth <= 0 keeps the subtraction from wrapping, which is what the
termination proof below establishes. -/
noncomputable def trace_ray (scene : Scene) (origin dir : Vec3)
    (t_min t_max : F) (depth : Fin 256) : Color :=
  match closest_intersection scene origin dir t_min t_max with
  | some (t, sphere) =>
    let point := origin + t.toReal * dir
    let normal := (point - sphere.center).normalize
    let local_color :=
      sphere.color * compute_lighting scene point normal (-dir) sphere.specularity
    if h : depth ≤ 0 ∨ sphere.reflectiveness ≤ 0 then local_color
    else
      let reflected_color :=
        trace_ray scene point (reflect_ray (-dir) normal) (F.fin 0.001) F.inf
          (depth - 1)
      local_color * (1 - sphere.reflectiveness) +
        reflected_color * sphere.reflectiveness
  | none => scene.bg_color
termination_by depth.val
decreasing_by
  omega

/-- trace_ray instrumented with explicit fuel: none when the fuel runs
out before the recursion bottoms out.  Used to state that the recursion
depth of trace_ray is bounded by its depth argument. -/
noncomputable def trace_rayFuel : ℕ → Scene → Vec3 → Vec3 → F → F → Fin 256 → Option Color
  | 0, _, _, _, _, _, _ => none
  | fuel + 1, scene, origin, dir, t_min, t_max, depth =>
    match closest_intersection scene origin dir t_min t_max with
    | some (t, sphere) =>
      let point := origin + t.toReal * dir
      let normal := (point - sphere.center).normalize
      let local_color :=
        sphere.color * compute_lighting scene point normal (-dir) sphere.specularity
      if depth ≤ 0 ∨ sphere.reflectiveness ≤ 0 then some local_color
      else
        (trace_rayFuel fuel scene point (reflect_ray (-dir) normal) (F.fin 0.001)
            F.inf (depth - 1)).map
          (fun reflected_color =>
            local_color * (1 - sphere.reflectiveness) +
              reflected_color * sphere.reflectiveness)
    | none => some scene.bg_color

/-- canvas_to_viewport (raytracer.rs). -/
noncomputable def canvas_to_viewport (scene : Scene) (x y : ℝ) : Vec3 :=
  ⟨x * scene.viewport.w / scene.canvas.w, y * scene.viewport.h / scene.canvas.h,
   scene.camera_dist⟩

/-- Both roots of the ray-sphere intersection lie within the given
t range (the acceptance filter of closest_intersection). -/
def rootsInRange (origin dir : Vec3) (t_min t_max : F) (sphere : Sphere) : Prop :=
  (intersect_ray_sphere origin dir sphere).1 ≥ t_min ∧
  (intersect_ray_sphere origin dir sphere).1 ≤ t_max ∧
  (intersect_ray_sphere origin dir sphere).2 ≥ t_min ∧
  (intersect_ray_sphere origin dir sphere).2 ≤ t_max

/-- The smaller of a sphere's two intersection roots. -/
noncomputable def nearRoot (origin dir : Vec3) (sphere : Sphere) : F :=
  F.min (intersect_ray_sphere origin dir sphere).1
    (intersect_ray_sphere origin dir sphere).2

/-- One light's value as the specification states it: the diffuse term
max(0, normal·light_dir) / (|normal|·|light_dir|) plus, for Specular s,
intensity · (reflect·point_to_camera / (|reflect|·|point_to_camera|))^s
with reflect = 2·normal·(normal·light_dir) − light_dir when that cosine
is positive, else 0; Matte contributes 0 specular. -/
noncomputable def spec_light_value (intensity : ℝ)
    (normal light_dir point_to_camera : Vec3) (specularity : Specularity) : ℝ :=
  Max.max 0 (normal.dot light_dir) / (normal.length * light_dir.length) +
  match specularity with
  | Specularity.Specular s =>
    let reflect := (2 : ℝ) * normal * normal.dot light_dir - light_dir
    let cosine := reflect.dot point_to_camera / (reflect.length * point_to_camera.length)
    if 0 < cosine then intensity * Real.rpow cosine s else 0
  | Specularity.Matte => 0

/-- A sphere with its reflectiveness replaced. -/
def setRefl (rho : ℝ) (sphere : Sphere) : Sphere :=
  { radius := sphere.radius, center := sphere.center, color := sphere.color,
    specularity := sphere.specularity, reflectiveness := rho }

/-- A scene with every sphere's reflectiveness replaced by rho. -/
def reflScene (scene : Scene) (rho : ℝ) : Scene :=
  { scene with spheres := scene.spheres.map (setRefl rho) }

/-- The intensity field of a light, whichever variant it is. -/
def lightIntensity : Light → ℝ
  | Light.Ambient light => light.intensity
  | Light.Point light => light.intensity
  | Light.Directional light => light.intensity

/-- A concrete sphere for evaluating the intersection code: radius 1,
centered five units down the z axis, half reflective. -/
noncomputable def testSphere : Sphere :=
  { radius := 1, center := ⟨0, 0, 5⟩, color := ⟨255, 0, 0, 255⟩,
    specularity := Specularity.Matte, reflectiveness := 0.5 }

/-- A concrete one-sphere scene. -/
noncomputable def testScene : Scene :=
  { spheres := [testSphere], bg_color := ⟨0, 0, 0, 0⟩, canvas := ⟨1, 1⟩,
    viewport := ⟨1, 1⟩, camera_dist := 1, lights := [] }

/-- A concrete scene with no spheres and one ambient light. -/
noncomputable def emptyScene : Scene :=
  { spheres := [], bg_color := ⟨0, 0, 0, 0⟩, canvas := ⟨1, 1⟩,
    viewport := ⟨1, 1⟩, camera_dist := 1,
    lights := [Light.Ambient ⟨1⟩] }

/-- A concrete sphere tangent to the ray from the origin along z. -/
noncomputable def tangentSphere : Sphere :=
  { radius := 1, center := ⟨1, 0, 5⟩, color := ⟨255, 255, 255, 255⟩,
    specularity := Specularity.Matte, reflectiveness := 0 }

/-- The coefficient b of the ray-sphere quadratic a·t² + b·t + c = 0,
as both the code and the specification write it. -/
noncomputable def rayQuadB (origin dir : Vec3) (sphere : Sphere) : ℝ :=
  2 * ((origin - sphere.center).dot dir)

/-- The discriminant b² − 4ac of the ray-sphere quadratic, with
a = dir·dir, b = 2·(origin−center)·dir and
c = (origin−center)·(origin−center) − r². -/
noncomputable def rayDiscriminant (origin dir : Vec3) (sphere : Sphere) : ℝ :=
  rayQuadB origin dir sphere * rayQuadB origin dir sphere -
    4 * dir.dot dir *
      ((origin - sphere.center).dot (origin - sphere.center) -
        sphere.radius * sphere.radius)

/-- The candidate list closest_intersection builds before taking the
minimum: the same map-filter-map-filter chain as the source. -/
noncomputable def intersection_candidates (scene : Scene) (origin dir : Vec3)
    (t_min t_max : F) : List (F × Sphere) :=
  (((scene.spheres.map
      (fun sphere => (intersect_ray_sphere origin dir sphere, sphere))).filter
      (fun p => decide
        (p.1.1 ≥ t_min ∧ p.1.1 ≤ t_max ∧ p.1.2 ≥ t_min ∧ p.1.2 ≤ t_max))).map
      (fun p => (F.min p.1.1 p.1.2, p.2))).filter
      (fun p => decide (p.1 < F.inf))

/-! ## Component lemmas for the vector and color algebra -/

@[simp] theorem Vec3.add_x (a b : Vec3) : (a + b).x = a.x + b.x := rfl

@[simp] theorem Vec3.add_y (a b : Vec3) : (a + b).y = a.y + b.y := rfl

@[simp] theorem Vec3.add_z (a b : Vec3) : (a + b).z = a.z + b.z := rfl

@[simp] theorem Vec3.neg_x (a : Vec3) : (-a).x = -a.x := rfl

@[simp] theorem Vec3.neg_y (a : Vec3) : (-a).y = -a.y := rfl

@[simp] theorem Vec3.neg_z (a : Vec3) : (-a).z = -a.z := rfl

@[simp] theorem Vec3.sub_x (a b : Vec3) : (a - b).x = a.x - b.x :=
  (sub_eq_add_neg a.x b.x).symm

@[simp] theorem Vec3.sub_y (a b : Vec3) : (a - b).y = a.y - b.y :=
  (sub_eq_add_neg a.y b.y).symm

@[simp] theorem Vec3.sub_z (a b : Vec3) : (a - b).z = a.z - b.z :=
  (sub_eq_add_neg a.z b.z).symm

@[simp] theorem Vec3.mulF_x (a : Vec3) (r : ℝ) : (a * r).x = r * a.x := rfl

@[simp] theorem Vec3.mulF_y (a : Vec3) (r : ℝ) : (a * r).y = r * a.y := rfl

@[simp] theorem Vec3.mulF_z (a : Vec3) (r : ℝ) : (a * r).z = r * a.z := rfl

@[simp] theorem Vec3.fMul_x (r : ℝ) (a : Vec3) : (r * a).x = r * a.x := rfl

@[simp] theorem Vec3.fMul_y (r : ℝ) (a : Vec3) : (r * a).y = r * a.y := rfl

@[simp] theorem Vec3.fMul_z (r : ℝ) (a : Vec3) : (r * a).z = r * a.z := rfl

@[simp] theorem Vec3.divF_x (a : Vec3) (r : ℝ) : (a / r).x = a.x / r := rfl

@[simp] theorem Vec3.divF_y (a : Vec3) (r : ℝ) : (a / r).y = a.y / r := rfl

@[simp] theorem Vec3.divF_z (a : Vec3) (r : ℝ) : (a / r).z = a.z / r := rfl

@[simp] theorem Color.add_r (c1 c2 : Color) : (c1 + c2).r = clamped_add c1.r c2.r := rfl

@[simp] theorem Color.add_g (c1 c2 : Color) : (c1 + c2).g = clamped_add c1.g c2.g := rfl

@[simp] theorem Color.add_b (c1 c2 : Color) : (c1 + c2).b = clamped_add c1.b c2.b := rfl

@[simp] theorem Color.add_a (c1 c2 : Color) : (c1 + c2).a = clamped_add c1.a c2.a := rfl

@[simp] theorem Color.mulF_r (c : Color) (f : ℝ) : (c * f).r = clamped_mul c.r f := rfl

@[simp] theorem Color.mulF_g (c : Color) (f : ℝ) : (c * f).g = clamped_mul c.g f := rfl

@[simp] theorem Color.mulF_b (c : Color) (f : ℝ) : (c * f).b = clamped_mul c.b f := rfl

@[simp] theorem Color.mulF_a (c : Color) (f : ℝ) : (c * f).a = clamped_mul c.a f := rfl

theorem Color.fMul_eq_mulF (f : ℝ) (c : Color) : f * c = c * f := rfl

/-! ## Order lemmas for F -/

@[simp] theorem F.fin_le_fin {x y : ℝ} : (F.fin x ≤ F.fin y) ↔ x ≤ y := Iff.rfl

@[simp] theorem F.le_inf (a : F) : a ≤ F.inf := by
  cases a <;> exact True.intro

@[simp] theorem F.not_inf_le_fin (x : ℝ) : ¬ (F.inf ≤ F.fin x) := fun h => h

@[simp] theorem F.fin_lt_fin {x y : ℝ} : (F.fin x < F.fin y) ↔ x < y := Iff.rfl

@[simp] theorem F.fin_lt_inf (x : ℝ) : F.fin x < F.inf := True.intro

@[simp] theorem F.not_inf_lt (a : F) : ¬ (F.inf < a) := fun h => h

@[simp] theorem F.min_fin_fin (x y : ℝ) :
    F.min (F.fin x) (F.fin y) = F.fin (Min.min x y) := rfl

@[simp] theorem F.toReal_fin (x : ℝ) : (F.fin x).toReal = x := rfl

theorem F.le_refl (a : F) : a ≤ a := by
  cases a with
  | fin x => exact F.fin_le_fin.mpr (le_rfl)
  | inf => exact True.intro

theorem F.le_trans {a b c : F} (hab : a ≤ b) (hbc : b ≤ c) : a ≤ c := by
  cases a with
  | fin x =>
    cases b with
    | fin y =>
      cases c with
      | fin z => exact F.fin_le_fin.mpr ((F.fin_le_fin.mp hab).trans (F.fin_le_fin.mp hbc))
      | inf => exact True.intro
    | inf =>
      cases c with
      | fin z => exact absurd hbc (F.not_inf_le_fin z)
      | inf => exact True.intro
  | inf =>
    cases b with
    | fin y => exact absurd hab (F.not_inf_le_fin y)
    | inf =>
      cases c with
      | fin z => exact absurd hbc (F.not_inf_le_fin z)
      | inf => exact True.intro

theorem F.le_total (a b : F) : a ≤ b ∨ b ≤ a := by
  cases a with
  | fin x =>
    cases b with
    | fin y => exact (LinearOrder.le_total x y).imp F.fin_le_fin.mpr F.fin_le_fin.mpr
    | inf => exact Or.inl (F.le_inf _)
  | inf => exact Or.inr (F.le_inf _)

theorem F.not_lt_of_le {a b : F} (hab : a ≤ b) : ¬ b < a := by
  cases a with
  | fin x =>
    cases b with
    | fin y =>
      exact fun hlt => absurd (F.fin_le_fin.mp hab) (not_le_of_lt (F.fin_lt_fin.mp hlt))
    | inf => exact F.not_inf_lt _
  | inf =>
    cases b with
    | fin y => exact absurd hab (F.not_inf_le_fin y)
    | inf => exact F.not_inf_lt _

theorem F.lt_inf_iff {a : F} : a < F.inf ↔ a ≠ F.inf := by
  cases a
  · simp
  · simp

theorem F.total_cmp_ne_gt_iff (a b : F) : F.total_cmp a b ≠ Ordering.gt ↔ a ≤ b := by
  cases a <;> cases b <;> simp only [F.total_cmp]
  · rename_i x y
    split_ifs with h1 h2
    · simp [le_of_lt h1]
    · simp [not_le_of_lt h2]
    · simp [not_lt.mp h2]
  · simp
  · simp
  · simp

/-! ## C1: orthogonality of Vec3::cross (refuted: the z component has a
transcription slip, rhs.z where the cross product has rhs.x) -/

/-- Claim C1: Vec3::cross is claimed to produce a vector orthogonal to
both arguments for all non-parallel inputs.  At the non-parallel pair
a = (0,1,1), b = (1,0,0) the code yields dot(cross(a,b), a) = 1, not 0:
the claim fails on the code as written. -/
theorem cross_orthogonality_fails :
    (Vec3.cross ⟨0, 1, 1⟩ ⟨1, 0, 0⟩).dot ⟨0, 1, 1⟩ = 1 ∧
    (∀ k : ℝ, (⟨0, 1, 1⟩ : Vec3) ≠ k * (⟨1, 0, 0⟩ : Vec3)) ∧
    (∀ k : ℝ, (⟨1, 0, 0⟩ : Vec3) ≠ k * (⟨0, 1, 1⟩ : Vec3)) := by
  refine ⟨?_, ?_, ?_⟩
  · simp [Vec3.cross, Vec3.dot]
  · intro k h
    have hy := congrArg Vec3.y h
    simp at hy
  · intro k h
    have hx := congrArg Vec3.x h
    simp at hx

/-! ## C8: the clamped color algebra -/

/-- Claim C8: Color addition is channel-wise saturating (alpha
included), and scalar multiplication on either side multiplies each
channel by the factor, clamps to 0..255 and converts to a byte. -/
theorem color_algebra_spec (c1 c2 c : Color) (f : ℝ) :
    ((c1 + c2).r = Min.min 255 (c1.r + c2.r) ∧
     (c1 + c2).g = Min.min 255 (c1.g + c2.g) ∧
     (c1 + c2).b = Min.min 255 (c1.b + c2.b) ∧
     (c1 + c2).a = Min.min 255 (c1.a + c2.a)) ∧
    ((c * f).r = (Int.floor (Min.min 255 (Max.max 0 ((c.r : ℝ) * f)))).toNat ∧
     (c * f).g = (Int.floor (Min.min 255 (Max.max 0 ((c.g : ℝ) * f)))).toNat ∧
     (c * f).b = (Int.floor (Min.min 255 (Max.max 0 ((c.b : ℝ) * f)))).toNat ∧
     (c * f).a = (Int.floor (Min.min 255 (Max.max 0 ((c.a : ℝ) * f)))).toNat) ∧
    f * c = c * f := by
  refine ⟨⟨?_, ?_, ?_, ?_⟩, ⟨?_, ?_, ?_, ?_⟩, Color.fMul_eq_mulF f c⟩ <;>
    simp [clamped_add, clamped_mul, Nat.min_comm, min_comm, max_comm]

/-! ## C2: case analysis of intersect_ray_sphere -/

/-- Claim C2 (amended): intersect_ray_sphere returns the sentinel pair
(+inf, +inf) exactly when the discriminant is negative; when the
discriminant is non-negative — including exactly zero — it returns the
two real roots (−b ± √discriminant)/(2a), a double root −b/(2a) when
the discriminant is exactly zero. -/
theorem intersect_ray_sphere_cases (origin dir : Vec3) (sphere : Sphere) :
    (intersect_ray_sphere origin dir sphere = (F.inf, F.inf) ↔
      rayDiscriminant origin dir sphere < 0) ∧
    (0 ≤ rayDiscriminant origin dir sphere →
      intersect_ray_sphere origin dir sphere =
        (F.fin ((-rayQuadB origin dir sphere +
            Real.sqrt (rayDiscriminant origin dir sphere)) / (2 * dir.dot dir)),
         F.fin ((-rayQuadB origin dir sphere -
            Real.sqrt (rayDiscriminant origin dir sphere)) / (2 * dir.dot dir)))) ∧
    (rayDiscriminant origin dir sphere = 0 →
      intersect_ray_sphere origin dir sphere =
        (F.fin (-rayQuadB origin dir sphere / (2 * dir.dot dir)),
         F.fin (-rayQuadB origin dir sphere / (2 * dir.dot dir)))) := by
  have hmain : intersect_ray_sphere origin dir sphere =
      if rayDiscriminant origin dir sphere < 0 then (F.inf, F.inf)
      else
        (F.fin ((-rayQuadB origin dir sphere +
            Real.sqrt (rayDiscriminant origin dir sphere)) / (2 * dir.dot dir)),
         F.fin ((-rayQuadB origin dir sphere -
            Real.sqrt (rayDiscriminant origin dir sphere)) / (2 * dir.dot dir))) := rfl
  rw [hmain]
  refine ⟨⟨fun h => ?_, fun hd => by rw [if_pos hd]⟩, fun hd => ?_, fun hd => ?_⟩
  · by_contra hd
    rw [if_neg hd] at h
    simp at h
  · rw [if_neg (not_lt.mpr hd)]
  · rw [if_neg (not_lt.mpr (le_of_eq hd.symm)), hd, Real.sqrt_zero]
    norm_num

/-- Claim C2 counterexample: at a ray exactly tangent to a sphere the
discriminant is exactly zero, yet intersect_ray_sphere does not return
the sentinel pair: it returns the double root (5, 5). -/
theorem intersect_zero_discriminant_not_sentinel :
    rayDiscriminant ⟨0, 0, 0⟩ ⟨0, 0, 1⟩ tangentSphere = 0 ∧
    intersect_ray_sphere ⟨0, 0, 0⟩ ⟨0, 0, 1⟩ tangentSphere = (F.fin 5, F.fin 5) ∧
    intersect_ray_sphere ⟨0, 0, 0⟩ ⟨0, 0, 1⟩ tangentSphere ≠ (F.inf, F.inf) := by
  have hd : rayDiscriminant ⟨0, 0, 0⟩ ⟨0, 0, 1⟩ tangentSphere = 0 := by
    simp [rayDiscriminant, rayQuadB, tangentSphere, Vec3.dot]
    norm_num
  have h2 : intersect_ray_sphere ⟨0, 0, 0⟩ ⟨0, 0, 1⟩ tangentSphere = (F.fin 5, F.fin 5) := by
    simp only [intersect_ray_sphere, tangentSphere, Vec3.dot]
    norm_num
  exact ⟨hd, h2, by rw [h2]; simp⟩

/-! ## Generic lemmas about minBy -/

theorem minBy_foldl_mem {α : Type} (cmp : α → α → Ordering) (x : α) (xs : List α) :
    xs.foldl (fun acc y => if cmp acc y = Ordering.gt then y else acc) x ∈ x :: xs := by
  induction xs generalizing x with
  | nil => exact List.mem_singleton_self x
  | cons z zs ih =>
    simp only [List.foldl_cons]
    by_cases hc : cmp x z = Ordering.gt
    · rw [if_pos hc]
      exact List.mem_cons_of_mem x (ih z)
    · rw [if_neg hc]
      rcases List.mem_cons.mp (ih x) with h1 | h1
      · rw [h1]
        exact List.mem_cons_self x (z :: zs)
      · exact List.mem_cons_of_mem x (List.mem_cons_of_mem z h1)

theorem minBy_foldl_le {α : Type} (cmp : α → α → Ordering) (R : α → α → Prop)
    (hcmp : ∀ a b, cmp a b ≠ Ordering.gt ↔ R a b)
    (htrans : ∀ a b c, R a b → R b c → R a c)
    (htotal : ∀ a b, R a b ∨ R b a)
    (x : α) (xs : List α) :
    ∀ y ∈ x :: xs,
      R (xs.foldl (fun acc w => if cmp acc w = Ordering.gt then w else acc) x) y := by
  induction xs generalizing x with
  | nil =>
    intro y hy
    have hyx : y = x := List.mem_singleton.mp hy
    subst hyx
    simpa using (htotal y y).elim id id
  | cons z zs ih =>
    intro y hy
    simp only [List.foldl_cons]
    by_cases hc : cmp x z = Ordering.gt
    · rw [if_pos hc]
      have hzx : R z x :=
        (htotal x z).resolve_left (fun hxz => ((hcmp x z).mpr hxz) hc)
      rcases List.mem_cons.mp hy with h1 | h1
      · subst h1
        exact htrans _ z y (ih z z (List.mem_cons_self z zs)) hzx
      · exact ih z y h1
    · rw [if_neg hc]
      have hxz : R x z := (hcmp x z).mp hc
      rcases List.mem_cons.mp hy with h1 | h1
      · subst h1
        exact ih y y (List.mem_cons_self y zs)
      · rcases List.mem_cons.mp h1 with h2 | h2
        · subst h2
          exact htrans _ x y (ih x x (List.mem_cons_self x zs)) hxz
        · exact ih x y (List.mem_cons_of_mem x h2)

theorem minBy_mem {α : Type} (cmp : α → α → Ordering) (l : List α) (m : α)
    (h : minBy cmp l = some m) : m ∈ l := by
  cases l with
  | nil => simp [minBy] at h
  | cons x xs =>
    have hm := Option.some.inj h
    rw [← hm]
    exact minBy_foldl_mem cmp x xs

theorem minBy_min {α : Type} (cmp : α → α → Ordering) (R : α → α → Prop)
    (hcmp : ∀ a b, cmp a b ≠ Ordering.gt ↔ R a b)
    (htrans : ∀ a b c, R a b → R b c → R a c)
    (htotal : ∀ a b, R a b ∨ R b a)
    (l : List α) (m : α) (h : minBy cmp l = some m) : ∀ y ∈ l, R m y := by
  cases l with
  | nil => simp [minBy] at h
  | cons x xs =>
    have hm := Option.some.inj h
    rw [← hm]
    exact minBy_foldl_le cmp R hcmp htrans htotal x xs

theorem minBy_eq_none_iff {α : Type} (cmp : α → α → Ordering) (l : List α) :
    minBy cmp l = none ↔ l = [] := by
  cases l <;> simp [minBy]

/-! ## C3: characterisation of closest_intersection -/

theorem closest_intersection_eq_minBy (scene : Scene) (origin dir : Vec3)
    (t_min t_max : F) :
    closest_intersection scene origin dir t_min t_max =
      minBy (fun p q => F.total_cmp p.1 q.1)
        (intersection_candidates scene origin dir t_min t_max) := rfl

theorem ge_iff_le_F (a b : F) : a ≥ b ↔ b ≤ a := Iff.rfl

theorem mem_intersection_candidates (scene : Scene) (origin dir : Vec3)
    (t_min t_max : F) (p : F × Sphere) :
    p ∈ intersection_candidates scene origin dir t_min t_max ↔
      p.2 ∈ scene.spheres ∧ rootsInRange origin dir t_min t_max p.2 ∧
      p.1 = nearRoot origin dir p.2 ∧ p.1 < F.inf := by
  unfold intersection_candidates rootsInRange nearRoot
  simp only [List.mem_filter, List.mem_map, decide_eq_true_eq]
  constructor
  · rintro ⟨⟨q, ⟨⟨s, hs, rfl⟩, hrange⟩, rfl⟩, hlt⟩
    exact ⟨hs, hrange, rfl, hlt⟩
  · rintro ⟨hs, hrange, hnear, hlt⟩
    refine ⟨⟨(intersect_ray_sphere origin dir p.2, p.2), ⟨⟨p.2, hs, rfl⟩, hrange⟩, ?_⟩, hlt⟩
    rw [← hnear]

/-- Claim C3: closest_intersection accepts a sphere only when BOTH of
its roots lie within the t range, takes the smaller root per accepted
sphere, discards +inf candidates, and returns the pair with the
globally minimal t under the total order; it returns none exactly when
no sphere qualifies, in particular whenever t_max < t_min or the
sphere list is empty. -/
theorem closest_intersection_spec (scene : Scene) (origin dir : Vec3)
    (t_min t_max : F) :
    (∀ t sphere,
      closest_intersection scene origin dir t_min t_max = some (t, sphere) →
      sphere ∈ scene.spheres ∧ rootsInRange origin dir t_min t_max sphere ∧
      t = nearRoot origin dir sphere ∧ t < F.inf ∧
      ∀ s ∈ scene.spheres, rootsInRange origin dir t_min t_max s →
        nearRoot origin dir s < F.inf → t ≤ nearRoot origin dir s) ∧
    (closest_intersection scene origin dir t_min t_max = none ↔
      ∀ s ∈ scene.spheres,
        ¬(rootsInRange origin dir t_min t_max s ∧ nearRoot origin dir s < F.inf)) ∧
    (t_max < t_min → closest_intersection scene origin dir t_min t_max = none) ∧
    (scene.spheres = [] → closest_intersection scene origin dir t_min t_max = none) := by
  have hcmp : ∀ a b : F × Sphere,
      (fun p q : F × Sphere => F.total_cmp p.1 q.1) a b ≠ Ordering.gt ↔ a.1 ≤ b.1 :=
    fun a b => F.total_cmp_ne_gt_iff a.1 b.1
  have htrans : ∀ a b c : F × Sphere, a.1 ≤ b.1 → b.1 ≤ c.1 → a.1 ≤ c.1 :=
    fun _ _ _ h1 h2 => F.le_trans h1 h2
  have htotal : ∀ a b : F × Sphere, a.1 ≤ b.1 ∨ b.1 ≤ a.1 :=
    fun a b => F.le_total a.1 b.1
  have hnone : closest_intersection scene origin dir t_min t_max = none ↔
      ∀ s ∈ scene.spheres,
        ¬(rootsInRange origin dir t_min t_max s ∧ nearRoot origin dir s < F.inf) := by
    rw [closest_intersection_eq_minBy, minBy_eq_none_iff]
    constructor
    · intro hnil s hs hcon
      have hmem : (nearRoot origin dir s, s) ∈
          intersection_candidates scene origin dir t_min t_max :=
        (mem_intersection_candidates scene origin dir t_min t_max _).mpr
          ⟨hs, hcon.1, rfl, hcon.2⟩
      rw [hnil] at hmem
      simp at hmem
    · intro hno
      apply List.eq_nil_iff_forall_not_mem.mpr
      intro p hp
      obtain ⟨hs, hr, hnear, hlt⟩ :=
        (mem_intersection_candidates scene origin dir t_min t_max p).mp hp
      exact hno p.2 hs ⟨hr, hnear ▸ hlt⟩
  refine ⟨?_, hnone, ?_, ?_⟩
  · intro t sphere h
    rw [closest_intersection_eq_minBy] at h
    have hmem := minBy_mem _ _ _ h
    obtain ⟨hs, hr, hnear, hlt⟩ :=
      (mem_intersection_candidates scene origin dir t_min t_max _).mp hmem
    refine ⟨hs, hr, hnear, hlt, ?_⟩
    intro s hs2 hr2 hlt2
    exact minBy_min _ _ hcmp htrans htotal _ _ h (nearRoot origin dir s, s)
      ((mem_intersection_candidates scene origin dir t_min t_max _).mpr
        ⟨hs2, hr2, rfl, hlt2⟩)
  · intro hlt
    apply hnone.mpr
    intro s _ hcon
    obtain ⟨h1, h2, _, _⟩ := hcon.1
    exact F.not_lt_of_le (F.le_trans h1 h2) hlt
  · intro hempty
    apply hnone.mpr
    rw [hempty]
    intro s hs
    simp at hs

/-! ## C4: shadowed lights contribute zero, ambient contributes its
intensity -/

/-- Claim C4: for a point light the shadow ray runs from the point
toward light.position − point with t in [0.001, 1]; for a directional
light along light.dir with t in [0.001, +inf).  If it hits anything the
light contributes exactly 0; an ambient light always contributes
exactly its intensity, with no shadow test. -/
theorem compute_lighting_shadow_ambient (scene : Scene) (point normal ptc : Vec3)
    (specularity : Specularity) :
    (∀ light : PointLight,
      (closest_intersection scene point (light.position - point) (F.fin 0.001)
          (F.fin 1)).isSome = true →
      light_contribution scene point normal ptc specularity (Light.Point light) = 0) ∧
    (∀ light : DirectionalLight,
      (closest_intersection scene point light.dir (F.fin 0.001) F.inf).isSome = true →
      light_contribution scene point normal ptc specularity
        (Light.Directional light) = 0) ∧
    (∀ light : AmbientLight,
      light_contribution scene point normal ptc specularity (Light.Ambient light) =
        light.intensity) := by
  refine ⟨?_, ?_, fun light => rfl⟩
  · intro light hshadow
    simp [light_contribution, calculate_intensity, hshadow]
  · intro light hshadow
    simp [light_contribution, calculate_intensity, hshadow]

/-! ## Positivity lemmas for dot products and lengths -/

theorem Vec3.length_nonneg (v : Vec3) : 0 ≤ v.length :=
  Real.sqrt_nonneg _

theorem Vec3.dot_self_nonneg (v : Vec3) : 0 ≤ v.dot v := by
  unfold Vec3.dot
  nlinarith [sq_nonneg v.x, sq_nonneg v.y, sq_nonneg v.z]

theorem Vec3.dot_comm (a b : Vec3) : a.dot b = b.dot a := by
  unfold Vec3.dot
  ring

theorem Vec3.dot_eq_zero_of_self_eq_zero (v w : Vec3) (h : v.dot v = 0) :
    v.dot w = 0 := by
  unfold Vec3.dot at h ⊢
  have hx : v.x = 0 := by nlinarith [sq_nonneg v.x, sq_nonneg v.y, sq_nonneg v.z]
  have hy : v.y = 0 := by nlinarith [sq_nonneg v.x, sq_nonneg v.y, sq_nonneg v.z]
  have hz : v.z = 0 := by nlinarith [sq_nonneg v.x, sq_nonneg v.y, sq_nonneg v.z]
  rw [hx, hy, hz]
  ring

theorem Vec3.length_pos_of_dot_ne_zero {v w : Vec3} (h : v.dot w ≠ 0) :
    0 < v.length ∧ 0 < w.length := by
  constructor
  · apply Real.sqrt_pos.mpr
    rcases lt_or_eq_of_le (Vec3.dot_self_nonneg v) with hpos | heq
    · exact hpos
    · exact absurd (Vec3.dot_eq_zero_of_self_eq_zero v w heq.symm) h
  · apply Real.sqrt_pos.mpr
    rcases lt_or_eq_of_le (Vec3.dot_self_nonneg w) with hpos | heq
    · exact hpos
    · have hw : w.dot v = 0 := Vec3.dot_eq_zero_of_self_eq_zero w v heq.symm
      exact absurd ((Vec3.dot_comm v w).trans hw) h

/-! ## C5: the unshadowed per-light value equals the specification's
diffuse + specular formula -/

/-- Claim C5: when the shadow ray finds no hit, the per-light value is
the diffuse term max(0, normal·light_dir)/(|normal|·|light_dir|) — not
multiplied by the intensity — plus the specular term
intensity·(reflect·ptc/(|reflect|·|ptc|))^s when that cosine is
positive and the specularity is Specular s, else 0, with Matte always
contributing 0 specular. -/
theorem calculate_intensity_unshadowed (scene : Scene)
    (point normal point_to_camera : Vec3) (specularity : Specularity)
    (intensity : ℝ) (light_dir : Vec3) (t_max : F)
    (h : (closest_intersection scene point light_dir (F.fin 0.001) t_max).isSome
      = false) :
    calculate_intensity scene point normal point_to_camera specularity intensity
        light_dir t_max =
      spec_light_value intensity normal light_dir point_to_camera specularity := by
  simp only [calculate_intensity, spec_light_value, h, Bool.false_eq_true, if_false]
  congr 1
  · by_cases hp : normal.dot light_dir > 0
    · rw [if_pos hp, max_eq_right (le_of_lt hp)]
    · rw [if_neg hp, max_eq_left (not_lt.mp hp), zero_div]
  · cases specularity with
    | Matte => rfl
    | Specular s =>
      show (if (reflect_ray light_dir normal).dot point_to_camera > 0 then
          intensity * Real.rpow ((reflect_ray light_dir normal).dot point_to_camera /
            ((reflect_ray light_dir normal).length * point_to_camera.length)) s
        else 0) =
        (if 0 < (reflect_ray light_dir normal).dot point_to_camera /
            ((reflect_ray light_dir normal).length * point_to_camera.length) then
          intensity * Real.rpow ((reflect_ray light_dir normal).dot point_to_camera /
            ((reflect_ray light_dir normal).length * point_to_camera.length)) s
        else 0)
      by_cases hrv : (reflect_ray light_dir normal).dot point_to_camera > 0
      · obtain ⟨hl1, hl2⟩ := Vec3.length_pos_of_dot_ne_zero (ne_of_gt hrv)
        rw [if_pos hrv, if_pos (div_pos hrv (mul_pos hl1 hl2))]
      · have hc : (reflect_ray light_dir normal).dot point_to_camera /
            ((reflect_ray light_dir normal).length * point_to_camera.length) ≤ 0 :=
          div_nonpos_of_nonpos_of_nonneg (not_lt.mp hrv)
            (mul_nonneg (Vec3.length_nonneg _) (Vec3.length_nonneg _))
        rw [if_neg hrv, if_neg (not_lt.mpr hc)]

theorem eval_closest_empty :
    closest_intersection emptyScene ⟨0, 0, 0⟩ ⟨0, 1, 0⟩ (F.fin 0.001) F.inf = none := by
  rw [closest_intersection_eq_minBy, minBy_eq_none_iff]
  simp [intersection_candidates, emptyScene]

/-- Witness for C5 at a concrete input: in the sphere-free scene the
shadow ray misses, and the per-light value equals the specification's
formula. -/
theorem calculate_intensity_unshadowed_witness :
    calculate_intensity emptyScene ⟨0, 0, 0⟩ ⟨0, 1, 0⟩ ⟨0, 0, 1⟩
        Specularity.Matte 1 ⟨0, 1, 0⟩ F.inf =
      spec_light_value 1 ⟨0, 1, 0⟩ ⟨0, 1, 0⟩ ⟨0, 0, 1⟩ Specularity.Matte := by
  apply calculate_intensity_unshadowed
  rw [eval_closest_empty]
  rfl

/-! ## C10: compute_lighting never returns a negative value -/

theorem foldl_add_nonneg (l : List ℝ) (init : ℝ) (h0 : 0 ≤ init)
    (h : ∀ x ∈ l, 0 ≤ x) : 0 ≤ l.foldl (fun acc x => acc + x) init := by
  induction l generalizing init with
  | nil => simpa using h0
  | cons z zs ih =>
    simp only [List.foldl_cons]
    exact ih (init + z) (add_nonneg h0 (h z (List.mem_cons_self z zs)))
      (fun x hx => h x (List.mem_cons_of_mem z hx))

theorem calculate_intensity_nonneg (scene : Scene)
    (point normal point_to_camera : Vec3) (specularity : Specularity)
    (intensity : ℝ) (light_dir : Vec3) (t_max : F) (hi : 0 ≤ intensity) :
    0 ≤ calculate_intensity scene point normal point_to_camera specularity
        intensity light_dir t_max := by
  simp only [calculate_intensity]
  by_cases hs : (closest_intersection scene point light_dir (F.fin 0.001)
      t_max).isSome = true
  · rw [if_pos hs]
  · rw [if_neg hs]
    apply add_nonneg
    · by_cases hp : normal.dot light_dir > 0
      · rw [if_pos hp]
        exact div_nonneg (le_of_lt hp)
          (mul_nonneg (Vec3.length_nonneg _) (Vec3.length_nonneg _))
      · rw [if_neg hp]
    · cases specularity with
      | Matte => exact le_rfl
      | Specular s =>
        show 0 ≤ (if (reflect_ray light_dir normal).dot point_to_camera > 0 then
            intensity *
              Real.rpow ((reflect_ray light_dir normal).dot point_to_camera /
                ((reflect_ray light_dir normal).length * point_to_camera.length)) s
          else 0)
        by_cases hrv : (reflect_ray light_dir normal).dot point_to_camera > 0
        · rw [if_pos hrv]
          exact mul_nonneg hi (Real.rpow_nonneg
            (div_nonneg (le_of_lt hrv)
              (mul_nonneg (Vec3.length_nonneg _) (Vec3.length_nonneg _))) s)
        · rw [if_neg hrv]

theorem light_contribution_nonneg (scene : Scene)
    (point normal point_to_camera : Vec3) (specularity : Specularity)
    (light : Light) (h : 0 ≤ lightIntensity light) :
    0 ≤ light_contribution scene point normal point_to_camera specularity light := by
  cases light with
  | Ambient l => exact h
  | Point l =>
    exact calculate_intensity_nonneg scene point normal point_to_camera specularity
      l.intensity (l.position - point) (F.fin 1) h
  | Directional l =>
    exact calculate_intensity_nonneg scene point normal point_to_camera specularity
      l.intensity l.dir F.inf h

/-- Claim C10: when every light's intensity is non-negative, every
per-light contribution is non-negative and compute_lighting never
returns a value strictly less than 0. -/
theorem compute_lighting_nonneg (scene : Scene)
    (point normal point_to_camera : Vec3) (specularity : Specularity)
    (h : ∀ light ∈ scene.lights, 0 ≤ lightIntensity light) :
    (∀ light ∈ scene.lights,
      0 ≤ light_contribution scene point normal point_to_camera specularity light) ∧
    0 ≤ compute_lighting scene point normal point_to_camera specularity := by
  have hper : ∀ light ∈ scene.lights,
      0 ≤ light_contribution scene point normal point_to_camera specularity light :=
    fun light hl =>
      light_contribution_nonneg scene point normal point_to_camera specularity light
        (h light hl)
  refine ⟨hper, ?_⟩
  unfold compute_lighting
  apply foldl_add_nonneg _ _ le_rfl
  intro x hx
  obtain ⟨light, hl, rfl⟩ := List.mem_map.mp hx
  exact hper light hl

/-- Witness for C10 at a concrete input: the one-ambient-light scene
has only non-negative intensities, and its lighting is non-negative. -/
theorem compute_lighting_nonneg_witness :
    (∀ light ∈ emptyScene.lights,
      0 ≤ light_contribution emptyScene ⟨0, 0, 0⟩ ⟨0, 1, 0⟩ ⟨0, 0, 1⟩
          Specularity.Matte light) ∧
    0 ≤ compute_lighting emptyScene ⟨0, 0, 0⟩ ⟨0, 1, 0⟩ ⟨0, 0, 1⟩
        Specularity.Matte := by
  apply compute_lighting_nonneg
  intro light hl
  simp only [emptyScene, List.mem_singleton] at hl
  subst hl
  norm_num [lightIntensity]

/-! ## Reflectiveness does not influence intersection or lighting -/

theorem intersect_setRefl (origin dir : Vec3) (rho : ℝ) (sphere : Sphere) :
    intersect_ray_sphere origin dir (setRefl rho sphere) =
      intersect_ray_sphere origin dir sphere := rfl

theorem minBy_map {α β : Type} (g : α → β) (cmpa : α → α → Ordering)
    (cmpb : β → β → Ordering) (hc : ∀ a b, cmpb (g a) (g b) = cmpa a b)
    (l : List α) : minBy cmpb (l.map g) = (minBy cmpa l).map g := by
  cases l with
  | nil => rfl
  | cons x xs =>
    simp only [List.map_cons, minBy, Option.map_some']
    congr 1
    induction xs generalizing x with
    | nil => rfl
    | cons z zs ih =>
      simp only [List.map_cons, List.foldl_cons]
      have hstep : (if cmpb (g x) (g z) = Ordering.gt then g z else g x) =
          g (if cmpa x z = Ordering.gt then z else x) := by
        rw [hc, apply_ite g]
      rw [hstep]
      exact ih (if cmpa x z = Ordering.gt then z else x)

theorem intersection_candidates_reflScene (scene : Scene) (rho : ℝ)
    (origin dir : Vec3) (t_min t_max : F) :
    intersection_candidates (reflScene scene rho) origin dir t_min t_max =
      (intersection_candidates scene origin dir t_min t_max).map
        (fun p => (p.1, setRefl rho p.2)) := by
  unfold intersection_candidates reflScene
  simp only [List.map_map, List.filter_map]
  rfl

theorem closest_intersection_reflScene (scene : Scene) (rho : ℝ)
    (origin dir : Vec3) (t_min t_max : F) :
    closest_intersection (reflScene scene rho) origin dir t_min t_max =
      (closest_intersection scene origin dir t_min t_max).map
        (fun p => (p.1, setRefl rho p.2)) := by
  rw [closest_intersection_eq_minBy, closest_intersection_eq_minBy,
    intersection_candidates_reflScene]
  exact minBy_map _ _ _ (fun a b => rfl) _

theorem calculate_intensity_reflScene (scene : Scene) (rho : ℝ)
    (point normal point_to_camera : Vec3) (specularity : Specularity)
    (intensity : ℝ) (light_dir : Vec3) (t_max : F) :
    calculate_intensity (reflScene scene rho) point normal point_to_camera
        specularity intensity light_dir t_max =
      calculate_intensity scene point normal point_to_camera specularity
        intensity light_dir t_max := by
  unfold calculate_intensity
  rw [closest_intersection_reflScene, Option.isSome_map']

theorem compute_lighting_reflScene (scene : Scene) (rho : ℝ)
    (point normal point_to_camera : Vec3) (specularity : Specularity) :
    compute_lighting (reflScene scene rho) point normal point_to_camera specularity =
      compute_lighting scene point normal point_to_camera specularity := by
  unfold compute_lighting
  have hl : (reflScene scene rho).lights = scene.lights := rfl
  rw [hl]
  congr 1
  apply List.map_congr_left
  intro light _
  cases light with
  | Ambient l => rfl
  | Point l =>
    exact calculate_intensity_reflScene scene rho point normal point_to_camera
      specularity l.intensity (l.position - point) (F.fin 1)
  | Directional l =>
    exact calculate_intensity_reflScene scene rho point normal point_to_camera
      specularity l.intensity l.dir F.inf

/-! ## C6: a hit at depth 0 or with non-positive reflectiveness
returns the local color, independent of reflectiveness -/

/-- Claim C6: when trace_ray hits a sphere and depth = 0 or the
sphere's reflectiveness is at most 0, it returns exactly
sphere.color * compute_lighting at the hit point with the outward
normal; at depth 0 the result does not change when every sphere's
reflectiveness is replaced by any other value. -/
theorem trace_ray_local_color (scene : Scene) (origin dir : Vec3)
    (t_min t_max : F) (depth : Fin 256) :
    (∀ t sphere,
      closest_intersection scene origin dir t_min t_max = some (t, sphere) →
      (depth ≤ 0 ∨ sphere.reflectiveness ≤ 0) →
      trace_ray scene origin dir t_min t_max depth =
        sphere.color *
          compute_lighting scene (origin + t.toReal * dir)
            ((origin + t.toReal * dir - sphere.center).normalize) (-dir)
            sphere.specularity) ∧
    (∀ rho : ℝ,
      trace_ray (reflScene scene rho) origin dir t_min t_max 0 =
        trace_ray scene origin dir t_min t_max 0) := by
  constructor
  · intro t sphere hhit hstop
    rw [trace_ray, hhit]
    exact dif_pos hstop
  · intro rho
    cases hci : closest_intersection scene origin dir t_min t_max with
    | none =>
      have hL : closest_intersection (reflScene scene rho) origin dir t_min t_max =
          none := by
        rw [closest_intersection_reflScene, hci]
        rfl
      rw [trace_ray, hL]
      rw [trace_ray, hci]
      rfl
    | some p =>
      obtain ⟨t, sphere⟩ := p
      have hL : closest_intersection (reflScene scene rho) origin dir t_min t_max =
          some (t, setRefl rho sphere) := by
        rw [closest_intersection_reflScene, hci]
        rfl
      have h1 : trace_ray (reflScene scene rho) origin dir t_min t_max 0 =
          (setRefl rho sphere).color *
            compute_lighting (reflScene scene rho) (origin + t.toReal * dir)
              ((origin + t.toReal * dir - (setRefl rho sphere).center).normalize)
              (-dir) (setRefl rho sphere).specularity := by
        rw [trace_ray, hL]
        exact dif_pos (Or.inl le_rfl)
      have h2 : trace_ray scene origin dir t_min t_max 0 =
          sphere.color *
            compute_lighting scene (origin + t.toReal * dir)
              ((origin + t.toReal * dir - sphere.center).normalize)
              (-dir) sphere.specularity := by
        rw [trace_ray, hci]
        exact dif_pos (Or.inl le_rfl)
      rw [h1, h2, compute_lighting_reflScene]
      rfl

/-! ## C7: a hit at positive depth and positive reflectiveness blends
local and reflected color -/

/-- Claim C7: on a hit with depth > 0 and reflectiveness > 0, trace_ray
traces reflect_ray(−dir, normal) from the hit point with t_min = 0.001,
t_max = +inf and depth − 1, and returns
local·(1 − reflectiveness) + reflected·reflectiveness under the clamped
Color arithmetic; for reflectiveness 0.5 this is 0.5·local + 0.5·reflected. -/
theorem trace_ray_reflection_blend (scene : Scene) (origin dir : Vec3)
    (t_min t_max : F) (depth : Fin 256) (t : F) (sphere : Sphere)
    (hhit : closest_intersection scene origin dir t_min t_max = some (t, sphere))
    (hdepth : ¬ depth ≤ 0) (hrefl : 0 < sphere.reflectiveness) :
    trace_ray scene origin dir t_min t_max depth =
      sphere.color *
          compute_lighting scene (origin + t.toReal * dir)
            ((origin + t.toReal * dir - sphere.center).normalize) (-dir)
            sphere.specularity *
          (1 - sphere.reflectiveness) +
        trace_ray scene (origin + t.toReal * dir)
            (reflect_ray (-dir) ((origin + t.toReal * dir - sphere.center).normalize))
            (F.fin 0.001) F.inf (depth - 1) *
          sphere.reflectiveness ∧
    (sphere.reflectiveness = 0.5 →
      trace_ray scene origin dir t_min t_max depth =
        sphere.color *
            compute_lighting scene (origin + t.toReal * dir)
              ((origin + t.toReal * dir - sphere.center).normalize) (-dir)
              sphere.specularity *
            (0.5 : ℝ) +
          trace_ray scene (origin + t.toReal * dir)
              (reflect_ray (-dir)
                ((origin + t.toReal * dir - sphere.center).normalize))
              (F.fin 0.001) F.inf (depth - 1) *
            (0.5 : ℝ)) := by
  have hmain : trace_ray scene origin dir t_min t_max depth =
      sphere.color *
          compute_lighting scene (origin + t.toReal * dir)
            ((origin + t.toReal * dir - sphere.center).normalize) (-dir)
            sphere.specularity *
          (1 - sphere.reflectiveness) +
        trace_ray scene (origin + t.toReal * dir)
            (reflect_ray (-dir) ((origin + t.toReal * dir - sphere.center).normalize))
            (F.fin 0.001) F.inf (depth - 1) *
          sphere.reflectiveness := by
    rw [trace_ray, hhit]
    exact dif_neg (fun hc => hc.elim hdepth (fun hle => absurd hrefl (not_lt_of_le hle)))
  refine ⟨hmain, fun h05 => ?_⟩
  rw [hmain, h05]
  norm_num

/-! ## C9: the recursion of trace_ray is bounded by its depth argument -/

theorem trace_rayFuel_complete (fuel : ℕ) :
    ∀ (scene : Scene) (origin dir : Vec3) (t_min t_max : F) (depth : Fin 256),
      depth.val < fuel →
      trace_rayFuel fuel scene origin dir t_min t_max depth =
        some (trace_ray scene origin dir t_min t_max depth) := by
  induction fuel with
  | zero =>
    intro scene origin dir t_min t_max depth h
    exact absurd h (Nat.not_lt_zero _)
  | succ n ih =>
    intro scene origin dir t_min t_max depth h
    rw [trace_rayFuel, trace_ray]
    cases hci : closest_intersection scene origin dir t_min t_max with
    | none => rfl
    | some p =>
      obtain ⟨t, sphere⟩ := p
      simp only [hci]
      by_cases hc : depth ≤ 0 ∨ sphere.reflectiveness ≤ 0
      · rw [if_pos hc, dif_pos hc]
      · rw [if_neg hc, dif_neg hc]
        have hd0 : ¬ depth ≤ 0 := fun hle => hc (Or.inl hle)
        have harith : ((depth - 1 : Fin 256)).val < n := by omega
        rw [ih _ _ _ _ _ _ harith]
        rfl

/-- Claim C9: trace_ray terminates and its recursion depth is bounded
by the depth argument: depth + 1 units of fuel always suffice, because
the recursive call is made only when depth is at least 1 and passes
depth − 1 (the u8 subtraction never wraps). -/
theorem trace_ray_depth_bounded (scene : Scene) (origin dir : Vec3)
    (t_min t_max : F) (depth : Fin 256) :
    trace_rayFuel (depth.val + 1) scene origin dir t_min t_max depth =
      some (trace_ray scene origin dir t_min t_max depth) :=
  trace_rayFuel_complete (depth.val + 1) scene origin dir t_min t_max depth
    (Nat.lt_succ_self _)

/-! ## Concrete evaluations for the witnesses -/

theorem eval_intersect :
    intersect_ray_sphere ⟨0, 0, 0⟩ ⟨0, 0, 1⟩ testSphere = (F.fin 6, F.fin 4) := by
  have hs : Real.sqrt 4 = 2 := by
    rw [show (4 : ℝ) = 2 ^ 2 by norm_num, Real.sqrt_sq (by norm_num : (0 : ℝ) ≤ 2)]
  simp only [intersect_ray_sphere, testSphere, Vec3.dot]
  norm_num [hs]

theorem eval_candidates :
    intersection_candidates testScene ⟨0, 0, 0⟩ ⟨0, 0, 1⟩ (F.fin 0.001) (F.fin 100) =
      [(F.fin 4, testSphere)] := by
  unfold intersection_candidates
  have hsph : testScene.spheres = [testSphere] := rfl
  rw [hsph, List.map_cons, List.map_nil, eval_intersect]
  simp only [List.filter_cons, List.filter_nil, List.map_cons, List.map_nil,
    decide_eq_true_eq, F.fin_le_fin, F.fin_lt_inf, F.min_fin_fin, ge_iff_le]
  norm_num

theorem eval_closest :
    closest_intersection testScene ⟨0, 0, 0⟩ ⟨0, 0, 1⟩ (F.fin 0.001) (F.fin 100) =
      some (F.fin 4, testSphere) := by
  rw [closest_intersection_eq_minBy, eval_candidates]
  rfl

/-- Witness for C7 at a concrete input: the ray down the z axis hits
the half-reflective test sphere at t = 4 with depth 1, and the result
is the blend of local and reflected color. -/
theorem trace_ray_reflection_blend_witness :
    trace_ray testScene ⟨0, 0, 0⟩ ⟨0, 0, 1⟩ (F.fin 0.001) (F.fin 100) 1 =
      testSphere.color *
          compute_lighting testScene
            ((⟨0, 0, 0⟩ : Vec3) + (F.fin 4).toReal * (⟨0, 0, 1⟩ : Vec3))
            (((⟨0, 0, 0⟩ : Vec3) + (F.fin 4).toReal * (⟨0, 0, 1⟩ : Vec3) -
              testSphere.center).normalize)
            (-(⟨0, 0, 1⟩ : Vec3)) testSphere.specularity *
          (1 - testSphere.reflectiveness) +
        trace_ray testScene ((⟨0, 0, 0⟩ : Vec3) + (F.fin 4).toReal * (⟨0, 0, 1⟩ : Vec3))
            (reflect_ray (-(⟨0, 0, 1⟩ : Vec3))
              (((⟨0, 0, 0⟩ : Vec3) + (F.fin 4).toReal * (⟨0, 0, 1⟩ : Vec3) -
                testSphere.center).normalize))
            (F.fin 0.001) F.inf ((1 : Fin 256) - 1) *
          testSphere.reflectiveness :=
  (trace_ray_reflection_blend testScene ⟨0, 0, 0⟩ ⟨0, 0, 1⟩ (F.fin 0.001)
    (F.fin 100) 1 (F.fin 4) testSphere eval_closest (by decide)
    (by norm_num [testSphere])).1
